import Mathlib

/-!
Shallow embedding of the GD32VF103 USB full-speed device driver
(`src/usbfs/device.rs`) and proofs about its endpoint allocator, transfer
engine, FIFO memory map, STALL handling and event translator.

Machine integers are modelled as `Nat` with explicit `% 2 ^ w` at the
narrowing casts that occur in the source.  Rust array indexing, which
panics when the index is out of bounds, is modelled by the `PanicOr`
result type.  Register writes performed by the transfer engine are
modelled as an explicit effect trace.
-/

set_option autoImplicit false

namespace Gd32Usbfs

/-- `usb_device::UsbDirection`: direction of a USB endpoint. -/
inductive UsbDirection where
  | In
  | Out
  deriving DecidableEq, Repr

/-- `usb_device::endpoint::EndpointType`. -/
inductive EndpointType where
  | Control
  | Isochronous
  | Bulk
  | Interrupt
  deriving DecidableEq, Repr

/-- The `usb_device::UsbError` variants used by this driver. -/
inductive UsbError where
  | InvalidEndpoint
  | EndpointOverflow
  | BufferOverflow
  | WouldBlock
  deriving DecidableEq, Repr

/-- `usb_device::endpoint::EndpointAddress`: an endpoint number together
with a direction bit.  The external crate packs both into one byte
(`index()` returns the low bits, the top bit is the direction); the claims
only depend on the `(index, direction)` pair, so the address is modelled
as that pair. -/
structure EndpointAddress where
  index : Nat
  dir : UsbDirection
  deriving DecidableEq, Repr

/-- `EndpointAddress::from_parts(index, dir)`. -/
def EndpointAddress.from_parts (i : Nat) (d : UsbDirection) : EndpointAddress :=
  ⟨i, d⟩

/-- `EndpointAddress::is_out`. -/
def EndpointAddress.is_out (a : EndpointAddress) : Bool :=
  a.dir = UsbDirection.Out

/-- `EndpointAddress::is_in`. -/
def EndpointAddress.is_in (a : EndpointAddress) : Bool :=
  a.dir = UsbDirection.In

/-- `MAX_ENDPOINTS`: maximum number of IN/OUT endpoints. -/
def MAX_ENDPOINTS : Nat := 4

/-- `WORD_LEN`: FIFO transfers move 4-byte words. -/
def WORD_LEN : Nat := 4

/-- Offset of the USBFS FIFO in SRAM (`USB_FIFO_OFFSET`). -/
def USB_FIFO_OFFSET : Nat := 0x1000

/-- `RX_FIFO_LEN`: RX FIFO depth in bytes. -/
def RX_FIFO_LEN : Nat := 0x80

def TX0_FIFO_OFFSET : Nat := USB_FIFO_OFFSET + RX_FIFO_LEN
def TX0_FIFO_LEN : Nat := 0x80

def TX1_FIFO_OFFSET : Nat := TX0_FIFO_OFFSET + TX0_FIFO_LEN
def TX1_FIFO_LEN : Nat := 0x40

def TX2_FIFO_OFFSET : Nat := TX1_FIFO_OFFSET + TX1_FIFO_LEN
def TX2_FIFO_LEN : Nat := 0x0

def TX3_FIFO_OFFSET : Nat := TX2_FIFO_OFFSET + TX2_FIFO_LEN
def TX3_FIFO_LEN : Nat := 0x0

/-- `TX_FIFO_OFFSETS` array. -/
def TX_FIFO_OFFSETS : List Nat :=
  [TX0_FIFO_OFFSET, TX1_FIFO_OFFSET, TX2_FIFO_OFFSET, TX3_FIFO_OFFSET]

/-- `TX_FIFO_LENGTHS` array. -/
def TX_FIFO_LENGTHS : List Nat :=
  [TX0_FIFO_LEN, TX1_FIFO_LEN, TX2_FIFO_LEN, TX3_FIFO_LEN]

/-- `ReceivedPacketStatus::OutPacketReceived as u8` (0b0010). -/
def OutPacketReceived : Nat := 0b0010

/-- `ReceivedPacketStatus::SetupPacketReceived as u8` (0b0110). -/
def SetupPacketReceived : Nat := 0b0110

/-- `Endpoint`: immutable description of one endpoint. -/
structure Endpoint where
  address : EndpointAddress
  ep_type : EndpointType
  max_packet_size : Nat
  interval : Nat
  deriving DecidableEq, Repr

/-- `Endpoint::new`. -/
def Endpoint.new (address : EndpointAddress) (ep_type : EndpointType)
    (max_packet_size : Nat) (interval : Nat) : Endpoint :=
  ⟨address, ep_type, max_packet_size, interval⟩

/-- Byte length of the FIFO region backing an endpoint, from
`Endpoint::as_raw_parts`: OUT endpoints share the RX region; IN endpoints
get `TX_FIFO_LENGTHS[min(index, MAX_ENDPOINTS - 1)]`. -/
def Endpoint.buf_len (ep : Endpoint) : Nat :=
  if ep.address.is_out then RX_FIFO_LEN
  else TX_FIFO_LENGTHS.getD (min ep.address.index (MAX_ENDPOINTS - 1)) 0

/-- Word length of the FIFO region backing an endpoint, from
`Endpoint::as_raw_word_parts` (byte length divided by 4). -/
def Endpoint.word_buf_len (ep : Endpoint) : Nat :=
  if ep.address.is_out then RX_FIFO_LEN / 4
  else TX_FIFO_LENGTHS.getD (min ep.address.index (MAX_ENDPOINTS - 1)) 0 / 4

/-- Result of a Rust computation that may panic (e.g. an array index out
of bounds). -/
inductive PanicOr (α : Type) where
  | panicked
  | ok (a : α)
  deriving DecidableEq, Repr

/-- The `[Option<Endpoint>; MAX_ENDPOINTS]` slot table. -/
structure EpSlots where
  s0 : Option Endpoint
  s1 : Option Endpoint
  s2 : Option Endpoint
  s3 : Option Endpoint
  deriving DecidableEq, Repr

/-- Rust array read `slots[i]`: panics when `i ≥ 4`. -/
def EpSlots.get (t : EpSlots) (i : Nat) : PanicOr (Option Endpoint) :=
  match i with
  | 0 => .ok t.s0
  | 1 => .ok t.s1
  | 2 => .ok t.s2
  | 3 => .ok t.s3
  | _ => .panicked

/-- Rust array write `slots[i] = v`: panics when `i ≥ 4`. -/
def EpSlots.set (t : EpSlots) (i : Nat) (v : Option Endpoint) : PanicOr EpSlots :=
  match i with
  | 0 => .ok { t with s0 := v }
  | 1 => .ok { t with s1 := v }
  | 2 => .ok { t with s2 := v }
  | 3 => .ok { t with s3 := v }
  | _ => .panicked

/-- Total variant of `EpSlots.set` used in theorem statements
(out-of-range indices leave the table unchanged). -/
def EpSlots.setT (t : EpSlots) (i : Nat) (v : Option Endpoint) : EpSlots :=
  match i with
  | 0 => { t with s0 := v }
  | 1 => { t with s1 := v }
  | 2 => { t with s2 := v }
  | 3 => { t with s3 := v }
  | _ => t

/-- `slots.iter().position(|e| e.is_none())`: index of the first free
slot, scanning in index order. -/
def EpSlots.firstFree (t : EpSlots) : Option Nat :=
  if t.s0.isNone then some 0
  else if t.s1.isNone then some 1
  else if t.s2.isNone then some 2
  else if t.s3.isNone then some 3
  else none

/-- The pure state of `UsbBusInner` relevant to the claims: the two
endpoint slot tables, plus the value the hardware would currently return
for the `dstat.fnrsof` frame-number field (read during isochronous
transfer setup). -/
structure UsbBusInner where
  in_endpoints : EpSlots
  out_endpoints : EpSlots
  fnrsof : Nat
  deriving DecidableEq, Repr

/-- The slot table of a given direction. -/
def UsbBusInner.slots (s : UsbBusInner) (d : UsbDirection) : EpSlots :=
  match d with
  | .In => s.in_endpoints
  | .Out => s.out_endpoints

/-- `UsbBusInner::new`: both slot tables start empty. -/
def UsbBusInner.new (fnrsof : Nat) : UsbBusInner :=
  ⟨⟨none, none, none, none⟩, ⟨none, none, none, none⟩, fnrsof⟩

/-- `UsbBusInner::alloc_ep`.  Mirrors the source exactly:
with an explicit address the slot table is indexed by `addr.index()`
with no bounds check (a Rust panic when the index is ≥ 4); with no
explicit address the first free slot in index order is taken, else
`EndpointOverflow`. -/
def UsbBusInner.alloc_ep (self : UsbBusInner) (ep_dir : UsbDirection)
    (ep_addr : Option EndpointAddress) (ep_type : EndpointType)
    (max_packet_size : Nat) (interval : Nat) :
    PanicOr (Except UsbError (EndpointAddress × UsbBusInner)) :=
  match ep_addr with
  | some addr =>
    match ep_dir with
    | .In =>
      match self.in_endpoints.get addr.index with
      | .panicked => .panicked
      | .ok slot =>
        if slot.isSome then .ok (.error .InvalidEndpoint)
        else
          match self.in_endpoints.set addr.index
              (some (Endpoint.new addr ep_type max_packet_size interval)) with
          | .panicked => .panicked
          | .ok eps => .ok (.ok (addr, { self with in_endpoints := eps }))
    | .Out =>
      match self.out_endpoints.get addr.index with
      | .panicked => .panicked
      | .ok slot =>
        if slot.isSome then .ok (.error .InvalidEndpoint)
        else
          match self.out_endpoints.set addr.index
              (some (Endpoint.new addr ep_type max_packet_size interval)) with
          | .panicked => .panicked
          | .ok eps => .ok (.ok (addr, { self with out_endpoints := eps }))
  | none =>
    match ep_dir with
    | .In =>
      match self.in_endpoints.firstFree with
      | some index =>
        let addr := EndpointAddress.from_parts index ep_dir
        match self.in_endpoints.set index
            (some (Endpoint.new addr ep_type max_packet_size interval)) with
        | .panicked => .panicked
        | .ok eps => .ok (.ok (addr, { self with in_endpoints := eps }))
      | none => .ok (.error .EndpointOverflow)
    | .Out =>
      match self.out_endpoints.firstFree with
      | some index =>
        let addr := EndpointAddress.from_parts index ep_dir
        match self.out_endpoints.set index
            (some (Endpoint.new addr ep_type max_packet_size interval)) with
        | .panicked => .panicked
        | .ok eps => .ok (.ok (addr, { self with out_endpoints := eps }))
      | none => .ok (.error .EndpointOverflow)

/-- One register or FIFO-memory effect performed by the transfer engine.
Each constructor names the register (or memory) the source writes and the
value(s) put into its fields. -/
inductive Effect where
  /-- `diepXlen.modify: pcnt := p, tlen := t` for IN endpoint `index`. -/
  | diepLenPcntTlen (index p t : Nat)
  /-- `diepXlen.modify: mcpf := m` for IN endpoint `index`. -/
  | diepLenMcpf (index m : Nat)
  /-- `diepXctl.modify: sd1pid_soddfrm set` for IN endpoint `index`. -/
  | diepCtlSd1pid (index : Nat)
  /-- `diepXctl.modify: sd0pid_sevenfrm set` for IN endpoint `index`. -/
  | diepCtlSd0pid (index : Nat)
  /-- `diepfeinten.modify: ieptxfeie := v` (TX-FIFO-empty interrupt enable
  field written with value `v`). -/
  | diepfeintenIeptxfeie (v : Nat)
  /-- `diepXctl.modify: cnak set, epen set` for IN endpoint `index`. -/
  | diepCtlCnakEpen (index : Nat)
  /-- `doepXlen.modify: pcnt := p, tlen := t` for OUT endpoint `index`. -/
  | doepLenPcntTlen (index p t : Nat)
  /-- `doepXctl.modify: sd1pid_soddfrm set` for OUT endpoint `index`. -/
  | doepCtlSd1pid (index : Nat)
  /-- `doepXctl.modify: sd0pid_sevenfrm set` for OUT endpoint `index`. -/
  | doepCtlSd0pid (index : Nat)
  /-- `doepXctl.modify: cnak set, epen set` for OUT endpoint `index`. -/
  | doepCtlCnakEpen (index : Nat)
  /-- `fifo[wordIndex] = word` in the TX FIFO region of IN endpoint
  `index` (`write`'s copy loop). -/
  | fifoWordWrite (index wordIndex word : Nat)
  /-- one word copied out of the shared RX FIFO into the caller's buffer
  (`read`'s copy loop). -/
  | rxCopyWord (wordIndex : Nat)
  deriving DecidableEq, Repr

/-- Body of the `setup_control_in_endpoint_xfer` helper, with its
parameters in the source's declared order: `regIndex` selects the
register block, then `pIndex` and `pLen` are the source's `$index` and
`$len` parameters.  The `tlen` field write truncates to `u8`. -/
def setup_control_in_endpoint_xfer_fx (regIndex pIndex pLen : Nat) : List Effect :=
  [.diepLenPcntTlen regIndex 1 (pLen % 256)]
    ++ (if pLen > 0 then [.diepfeintenIeptxfeie (pIndex % 256)] else [])
    ++ [.diepCtlCnakEpen regIndex]

/-- Body of the `setup_in_endpoint_xfer` helper, parameters in the
source's declared order (`$ep`, `$index`, `$len` become `ep`, `pIndex`,
`pLen`).  `fnrsof` is the value read from `dstat.fnrsof`; the `tlen`
write casts to `u32`. -/
def setup_in_endpoint_xfer_fx (regIndex fnrsof : Nat) (ep : Endpoint)
    (pIndex pLen : Nat) : List Effect :=
  [.diepLenPcntTlen regIndex 1 (pLen % 2 ^ 32)]
    ++ (if ep.ep_type = EndpointType.Isochronous then
          [.diepLenMcpf regIndex 1]
            ++ (if (fnrsof >>> 8) &&& 1 ≠ 0 then [.diepCtlSd1pid regIndex]
                else [.diepCtlSd0pid regIndex])
        else if pLen > 0 then [.diepfeintenIeptxfeie (pIndex % 256)]
        else [])
    ++ [.diepCtlCnakEpen regIndex]

/-- `UsbBusInner::setup_in_xfer`.  Note the argument order at every call
site in the source: the helpers declare `($index, $len)` but are invoked
with `(len, index)`, so `pIndex` receives the buffer length and `pLen`
receives the literal endpoint index of the arm. -/
def setup_in_xfer (fnrsof : Nat) (ep : Endpoint) (len : Nat) :
    Except UsbError (List Effect) :=
  match ep.address.index with
  | 0 => .ok (setup_control_in_endpoint_xfer_fx 0 len 0)
  | 1 => .ok (setup_in_endpoint_xfer_fx 1 fnrsof ep len 1)
  | 2 => .ok (setup_in_endpoint_xfer_fx 2 fnrsof ep len 2)
  | 3 => .ok (setup_in_endpoint_xfer_fx 3 fnrsof ep len 3)
  | _ => .error .EndpointOverflow

/-- Body of the `setup_control_out_endpoint_xfer` helper: `pcnt` is a
single bit set to 1, `tlen` truncates to `u8`. -/
def setup_control_out_endpoint_xfer_fx (pLen : Nat) : List Effect :=
  [.doepLenPcntTlen 0 1 (pLen % 256), .doepCtlCnakEpen 0]

/-- Body of the `setup_out_endpoint_xfer` helper (parameters in declared
order; these call sites pass `(ep, len)` unswapped). -/
def setup_out_endpoint_xfer_fx (regIndex fnrsof : Nat) (ep : Endpoint)
    (pLen : Nat) : List Effect :=
  [.doepLenPcntTlen regIndex 1 (pLen % 2 ^ 32)]
    ++ (if ep.ep_type = EndpointType.Isochronous then
          (if (fnrsof >>> 8) &&& 1 ≠ 0 then [.doepCtlSd1pid regIndex]
           else [.doepCtlSd0pid regIndex])
        else [])
    ++ [.doepCtlCnakEpen regIndex]

/-- `UsbBusInner::setup_out_xfer`. -/
def setup_out_xfer (fnrsof : Nat) (ep : Endpoint) (len : Nat) :
    Except UsbError (List Effect) :=
  match ep.address.index with
  | 0 => .ok (setup_control_out_endpoint_xfer_fx len)
  | 1 => .ok (setup_out_endpoint_xfer_fx 1 fnrsof ep len)
  | 2 => .ok (setup_out_endpoint_xfer_fx 2 fnrsof ep len)
  | 3 => .ok (setup_out_endpoint_xfer_fx 3 fnrsof ep len)
  | _ => .error .EndpointOverflow

/-- `u32::from_le_bytes` of the `i`-th 4-byte chunk of `buf`. -/
def wordAt (buf : List Nat) (i : Nat) : Nat :=
  buf.getD (4 * i) 0 + 256 * buf.getD (4 * i + 1) 0
    + 65536 * buf.getD (4 * i + 2) 0 + 16777216 * buf.getD (4 * i + 3) 0

/-- The word-copy loop of `write`:
`for (i, word) in buf.chunks_exact(WORD_LEN).enumerate() { fifo[i] = ... }`.
`chunks_exact` yields `buf.len() / 4` chunks (the remainder is dropped);
`fifo[i]` panics as soon as `i` reaches the FIFO word length, i.e. the
loop panics exactly when the chunk count exceeds
`ep.word_buf_len`. -/
def fifoCopy (ep : Endpoint) (buf : List Nat) : PanicOr (List Effect) :=
  let n := buf.length / WORD_LEN
  if n ≤ ep.word_buf_len then
    .ok ((List.range n).map fun i => .fifoWordWrite ep.address.index i (wordAt buf i))
  else .panicked

/-- `UsbBusInner::write`.  The caller's byte buffer is `buf`; the result
pairs the returned `Result<usize>` with the trace of register and FIFO
effects the call performed. -/
def UsbBusInner.write (self : UsbBusInner) (ep_addr : EndpointAddress)
    (buf : List Nat) : PanicOr (Except UsbError Nat × List Effect) :=
  let index := ep_addr.index
  if index ≥ MAX_ENDPOINTS then .ok (.error .InvalidEndpoint, [])
  else if ep_addr.is_out then .ok (.error .InvalidEndpoint, [])
  else
    match self.in_endpoints.get index with
    | .panicked => .panicked
    | .ok none => .ok (.error .InvalidEndpoint, [])
    | .ok (some ep) =>
      let len := buf.length
      if len > ep.max_packet_size then .ok (.error .BufferOverflow, [])
      else
        match setup_in_xfer self.fnrsof ep len with
        | .error e => .ok (.error e, [])
        | .ok fx1 =>
          match fifoCopy ep buf with
          | .panicked => .panicked
          | .ok fx2 => .ok (.ok len, fx1 ++ fx2)

/-- The word-copy loop of `read`:
`for (fifo_word, buf_word) in fifo.iter().zip(buf.chunks_exact_mut(4))`,
decrementing a saturating countdown started at `max_packet_size` by 4
each iteration and breaking when it reaches 0.  `pairs` is the number of
`(fifo word, buffer chunk)` pairs the zip can yield; `wi` the current
word index; `readRem` the countdown. -/
def readCopyLoop : Nat → Nat → Nat → List Effect
  | 0, _, _ => []
  | pairs + 1, wi, readRem =>
    let readRem2 := readRem - WORD_LEN
    Effect.rxCopyWord wi ::
      (if readRem2 = 0 then [] else readCopyLoop pairs (wi + 1) readRem2)

/-- `UsbBusInner::read`.  Only the caller buffer's length is relevant
(its prior contents are overwritten), so the buffer is modelled by
`bufLen`.  The result pairs the returned `Result<usize>` with the trace
of effects. -/
def UsbBusInner.read (self : UsbBusInner) (ep_addr : EndpointAddress)
    (bufLen : Nat) : PanicOr (Except UsbError Nat × List Effect) :=
  let len := bufLen
  let index := ep_addr.index
  if index ≥ MAX_ENDPOINTS then .ok (.error .InvalidEndpoint, [])
  else if ep_addr.is_in then .ok (.error .InvalidEndpoint, [])
  else
    match self.out_endpoints.get index with
    | .panicked => .panicked
    | .ok none => .ok (.error .InvalidEndpoint, [])
    | .ok (some ep) =>
      if len < ep.max_packet_size then .ok (.error .BufferOverflow, [])
      else
        match setup_out_xfer self.fnrsof ep len with
        | .error e => .ok (.error e, [])
        | .ok fx1 =>
          let pairs := min ep.word_buf_len (len / WORD_LEN)
          .ok (.ok len, fx1 ++ readCopyLoop pairs 0 ep.max_packet_size)

/-- The bits of one endpoint control register (`diepXctl` / `doepXctl`)
touched by `set_stalled` / `is_stalled`. -/
structure EpCtl where
  epen : Bool
  epd : Bool
  stall : Bool
  deriving DecidableEq, Repr

/-- The eight endpoint control registers. -/
structure StallRegs where
  diep0ctl : EpCtl
  diep1ctl : EpCtl
  diep2ctl : EpCtl
  diep3ctl : EpCtl
  doep0ctl : EpCtl
  doep1ctl : EpCtl
  doep2ctl : EpCtl
  doep3ctl : EpCtl
  deriving DecidableEq, Repr

/-- Body of the `set_in_stalled` helper: a `modify` that sets `epd` when
`epen` is currently set, and sets or clears `stall`. -/
def set_in_stalled (r : EpCtl) (stall : Bool) : EpCtl :=
  { r with epd := if r.epen then true else r.epd, stall := stall }

/-- Body of the `set_out_stalled` helper: a `modify` that sets or clears
`stall` only. -/
def set_out_stalled (r : EpCtl) (stall : Bool) : EpCtl :=
  { r with stall := stall }

/-- `UsbBusInner::set_stalled`: matches on direction then on the index;
indices ≥ 4 fall through to `_ => ()` (no register access). -/
def set_stalled (regs : StallRegs) (ep_addr : EndpointAddress)
    (stalled : Bool) : StallRegs :=
  let index := ep_addr.index
  if ep_addr.is_in then
    match index with
    | 0 => { regs with diep0ctl := set_in_stalled regs.diep0ctl stalled }
    | 1 => { regs with diep1ctl := set_in_stalled regs.diep1ctl stalled }
    | 2 => { regs with diep2ctl := set_in_stalled regs.diep2ctl stalled }
    | 3 => { regs with diep3ctl := set_in_stalled regs.diep3ctl stalled }
    | _ => regs
  else
    match index with
    | 0 => { regs with doep0ctl := set_out_stalled regs.doep0ctl stalled }
    | 1 => { regs with doep1ctl := set_out_stalled regs.doep1ctl stalled }
    | 2 => { regs with doep2ctl := set_out_stalled regs.doep2ctl stalled }
    | 3 => { regs with doep3ctl := set_out_stalled regs.doep3ctl stalled }
    | _ => regs

/-- `UsbBusInner::is_stalled`: reads the `stall` bit of the per-index,
per-direction control register; indices ≥ 4 return `false`. -/
def is_stalled (regs : StallRegs) (ep_addr : EndpointAddress) : Bool :=
  let is_in := ep_addr.is_in
  match ep_addr.index with
  | 0 => if is_in then regs.diep0ctl.stall else regs.doep0ctl.stall
  | 1 => if is_in then regs.diep1ctl.stall else regs.doep1ctl.stall
  | 2 => if is_in then regs.diep2ctl.stall else regs.doep2ctl.stall
  | 3 => if is_in then regs.diep3ctl.stall else regs.doep3ctl.stall
  | _ => false

/-- Helper for theorem statements: the `stall` bit of the control
register of a given `(direction, index)` pair (defaults to `false` out of
range). -/
def stallBit (regs : StallRegs) (d : UsbDirection) (i : Nat) : Bool :=
  match d, i with
  | .In, 0 => regs.diep0ctl.stall
  | .In, 1 => regs.diep1ctl.stall
  | .In, 2 => regs.diep2ctl.stall
  | .In, 3 => regs.diep3ctl.stall
  | .Out, 0 => regs.doep0ctl.stall
  | .Out, 1 => regs.doep1ctl.stall
  | .Out, 2 => regs.doep2ctl.stall
  | .Out, 3 => regs.doep3ctl.stall
  | _, _ => false

/-- The fields of the global interrupt-status register `gintf` read by
`poll`. -/
structure Gintf where
  wkupif : Bool
  rst : Bool
  sp : Bool
  deriving DecidableEq, Repr

/-- The fields of the receive-status-pop register `grstatp` read by
`poll`: the 4-bit receive-status field and the endpoint number. -/
structure Grstatp where
  rpckst : Nat
  epnum : Nat
  deriving DecidableEq, Repr

/-- `usb_device::bus::PollResult`. -/
inductive PollResult where
  | Data (ep_out ep_in_complete ep_setup : Nat)
  | Resume
  | Reset
  | Suspend
  | None
  deriving DecidableEq, Repr

/-- `UsbBusInner::poll`: translates one read of `gintf` and one read of
`grstatp` into a `PollResult`. -/
def poll (gintf : Gintf) (grstatp : Grstatp) : PollResult :=
  let rpckst := grstatp.rpckst
  if rpckst = OutPacketReceived then
    .Data grstatp.epnum 0 0
  else if rpckst = SetupPacketReceived then
    .Data 0 0 grstatp.epnum
  else if gintf.wkupif then .Resume
  else if gintf.rst then .Reset
  else if gintf.sp then .Suspend
  else .None

/-- The `(depth, start address)` pairs `setup_fifos` writes into the four
`diepXtflen` registers: `ram_addr` starts at `RX_FIFO_LEN` and advances
by each TX length in turn. -/
def setup_fifos_tx_regs : List (Nat × Nat) :=
  (TX_FIFO_LENGTHS.foldl
    (fun acc txlen => (acc.1 + txlen, acc.2 ++ [(txlen, acc.1)]))
    (RX_FIFO_LEN, [])).2

/-- Half-open byte interval `[start, start + len)` in the FIFO SRAM
window. -/
structure Region where
  start : Nat
  len : Nat
  deriving DecidableEq, Repr

/-- Two regions do not overlap. -/
def Region.disjoint (a b : Region) : Prop :=
  a.start + a.len ≤ b.start ∨ b.start + b.len ≤ a.start

instance (a b : Region) : Decidable (a.disjoint b) := by
  unfold Region.disjoint
  infer_instance

/-- The RX region and the four TX regions as laid out by the constants
(`USB_FIFO_OFFSET` is the FIFO base). -/
def fifoRegions : List Region :=
  [⟨USB_FIFO_OFFSET, RX_FIFO_LEN⟩,
   ⟨TX0_FIFO_OFFSET, TX0_FIFO_LEN⟩,
   ⟨TX1_FIFO_OFFSET, TX1_FIFO_LEN⟩,
   ⟨TX2_FIFO_OFFSET, TX2_FIFO_LEN⟩,
   ⟨TX3_FIFO_OFFSET, TX3_FIFO_LEN⟩]

/-- Updates the slot table of a given direction (used in theorem
statements to describe the state after an allocation). -/
def UsbBusInner.setSlots (s : UsbBusInner) (d : UsbDirection) (eps : EpSlots) :
    UsbBusInner :=
  match d with
  | .In => { s with in_endpoints := eps }
  | .Out => { s with out_endpoints := eps }

/-- Well-formedness of one slot, as the spec's data model states it: a
stored endpoint's address agrees with its slot and direction, and its
max packet size fits the FIFO region backing it. -/
def EpWf (d : UsbDirection) (i : Nat) : Option Endpoint → Prop
  | none => True
  | some ep =>
    ep.address.index = i ∧ ep.address.dir = d ∧ ep.max_packet_size ≤ ep.buf_len

instance EpWf.dec (d : UsbDirection) (i : Nat) :
    (slot : Option Endpoint) → Decidable (EpWf d i slot)
  | none => isTrue trivial
  | some ep =>
    inferInstanceAs (Decidable
      (ep.address.index = i ∧ ep.address.dir = d ∧
        ep.max_packet_size ≤ ep.buf_len))

/-- Well-formedness of the whole bus state (the spec's §3 data-model
invariants, which every allocation the class stack performs is required
to respect). -/
def Wf (s : UsbBusInner) : Prop :=
  EpWf .In 0 s.in_endpoints.s0 ∧ EpWf .In 1 s.in_endpoints.s1 ∧
    EpWf .In 2 s.in_endpoints.s2 ∧ EpWf .In 3 s.in_endpoints.s3 ∧
    EpWf .Out 0 s.out_endpoints.s0 ∧ EpWf .Out 1 s.out_endpoints.s1 ∧
    EpWf .Out 2 s.out_endpoints.s2 ∧ EpWf .Out 3 s.out_endpoints.s3

instance (s : UsbBusInner) : Decidable (Wf s) := by
  unfold Wf
  infer_instance

/-- Out-of-range slot reads panic. -/
theorem EpSlots.get_ge (t : EpSlots) (i : Nat) (h : 4 ≤ i) :
    t.get i = .panicked := by
  match i, h with
  | n + 4, _ => rfl

/-- C1: For every direction and every endpoint index in 0..4, calling
`alloc_ep` with an explicit address whose (direction, index) slot is
already occupied fails with `InvalidEndpoint`; if the slot is free,
`alloc_ep` occupies it and returns exactly the requested address. -/
theorem C1_alloc_ep_explicit (s : UsbBusInner) (dir : UsbDirection)
    (addr : EndpointAddress) (t : EndpointType) (mps iv : Nat)
    (hlt : addr.index < MAX_ENDPOINTS) :
    (∀ ep, (s.slots dir).get addr.index = .ok (some ep) →
      s.alloc_ep dir (some addr) t mps iv = .ok (.error .InvalidEndpoint)) ∧
    ((s.slots dir).get addr.index = .ok none →
      s.alloc_ep dir (some addr) t mps iv =
        .ok (.ok (addr, s.setSlots dir
          ((s.slots dir).setT addr.index (some (Endpoint.new addr t mps iv))))) ∧
      ((s.setSlots dir
          ((s.slots dir).setT addr.index
            (some (Endpoint.new addr t mps iv)))).slots dir).get addr.index =
        .ok (some (Endpoint.new addr t mps iv))) := by
  obtain ⟨i, ad⟩ := addr
  have hi : i < 4 := hlt
  constructor
  · intro ep h
    cases dir <;> interval_cases i <;>
      simp_all [UsbBusInner.alloc_ep, UsbBusInner.slots, EpSlots.get, EpSlots.set]
  · intro h
    cases dir <;> interval_cases i <;>
      simp_all [UsbBusInner.alloc_ep, UsbBusInner.slots, UsbBusInner.setSlots,
        EpSlots.get, EpSlots.set, EpSlots.setT]

theorem C1_witness :
    (UsbBusInner.new 0).alloc_ep .In (some ⟨0, .In⟩) .Bulk 64 0 =
      .ok (.ok (⟨0, .In⟩,
        (UsbBusInner.new 0).setSlots .In
          (((UsbBusInner.new 0).slots .In).setT 0
            (some (Endpoint.new ⟨0, .In⟩ .Bulk 64 0))))) :=
  ((C1_alloc_ep_explicit (UsbBusInner.new 0) .In ⟨0, .In⟩ .Bulk 64 0
    (by decide)).2 rfl).1

/-- C2: For every direction, calling `alloc_ep` with no explicit address
occupies the lowest-index free slot of that direction (scanning indices
0..MAX_ENDPOINTS in order) and returns its address; if all four slots of
that direction are occupied it fails with `EndpointOverflow`. -/
theorem C2_alloc_ep_auto (s : UsbBusInner) (dir : UsbDirection)
    (t : EndpointType) (mps iv : Nat) :
    (∀ i, (s.slots dir).get i = .ok none →
      (∀ j, j < i → (s.slots dir).get j ≠ .ok none) →
      s.alloc_ep dir none t mps iv =
        .ok (.ok (EndpointAddress.from_parts i dir,
          s.setSlots dir ((s.slots dir).setT i
            (some (Endpoint.new (EndpointAddress.from_parts i dir) t mps iv)))))) ∧
    ((∀ j, j < MAX_ENDPOINTS → (s.slots dir).get j ≠ .ok none) →
      s.alloc_ep dir none t mps iv = .ok (.error .EndpointOverflow)) := by
  constructor
  · intro i hfree hbelow
    have hi : i < 4 := by
      by_contra hc
      rw [EpSlots.get_ge _ i (by omega)] at hfree
      exact PanicOr.noConfusion hfree
    have h0 := fun h => hbelow 0 h
    have h1 := fun h => hbelow 1 h
    have h2 := fun h => hbelow 2 h
    cases dir <;> interval_cases i <;>
      simp_all [UsbBusInner.alloc_ep, UsbBusInner.slots, UsbBusInner.setSlots,
        EpSlots.get, EpSlots.set, EpSlots.setT, EpSlots.firstFree,
        EndpointAddress.from_parts, Option.isNone_iff_eq_none]
  · intro hfull
    have h0 := hfull 0 (by decide)
    have h1 := hfull 1 (by decide)
    have h2 := hfull 2 (by decide)
    have h3 := hfull 3 (by decide)
    cases dir <;>
      simp_all [UsbBusInner.alloc_ep, UsbBusInner.slots, EpSlots.get,
        EpSlots.firstFree, Option.isNone_iff_eq_none]

theorem C2_witness :
    (UsbBusInner.new 0).alloc_ep .Out none .Bulk 64 0 =
      .ok (.ok (EndpointAddress.from_parts 0 .Out,
        (UsbBusInner.new 0).setSlots .Out
          (((UsbBusInner.new 0).slots .Out).setT 0
            (some (Endpoint.new (EndpointAddress.from_parts 0 .Out) .Bulk 64 0))))) :=
  (C2_alloc_ep_auto (UsbBusInner.new 0) .Out .Bulk 64 0).1 0 rfl
    (fun j hj => absurd hj (by omega))

/-- C3 counterexample: `alloc_ep` on a fresh bus with an explicit address
of index 4 (= MAX_ENDPOINTS) indexes the slot table out of bounds — a
Rust panic — instead of returning a discriminated error, so the claim
that every fallible operation checks endpoint bounds before any
slot-table access is false for `alloc_ep`. -/
theorem C3_counterexample :
    (UsbBusInner.new 0).alloc_ep .In (some ⟨4, .In⟩) .Bulk 64 0 = .panicked :=
  rfl

/-- C3 (amended): `write` and `read` check endpoint bounds before any
slot-table or register access and fail with `InvalidEndpoint` (no
effects) for any address whose index is ≥ MAX_ENDPOINTS, and automatic
`alloc_ep` never panics; but `alloc_ep` with an explicit out-of-range
address performs an unchecked slot-table access and panics. -/
theorem C3_amended_bounds (s : UsbBusInner) (addr : EndpointAddress)
    (buf : List Nat) (bufLen : Nat) (dir : UsbDirection) (t : EndpointType)
    (mps iv : Nat) (h : MAX_ENDPOINTS ≤ addr.index) :
    s.write addr buf = .ok (.error .InvalidEndpoint, []) ∧
    s.read addr bufLen = .ok (.error .InvalidEndpoint, []) ∧
    s.alloc_ep dir (some addr) t mps iv = .panicked ∧
    s.alloc_ep dir none t mps iv ≠ .panicked := by
  have hge : (s.slots dir).get addr.index = .panicked :=
    EpSlots.get_ge _ _ h
  refine ⟨?_, ?_, ?_, ?_⟩
  · simp [UsbBusInner.write, h]
  · simp [UsbBusInner.read, h]
  · cases dir <;>
      simp_all [UsbBusInner.alloc_ep, UsbBusInner.slots]
  · cases dir <;>
      · simp only [UsbBusInner.alloc_ep]
        unfold EpSlots.firstFree
        split_ifs <;> simp [EpSlots.set]

theorem C3_witness :
    MAX_ENDPOINTS ≤ (5 : Nat) ∧
    ((UsbBusInner.new 0).write ⟨5, .In⟩ [] = .ok (.error .InvalidEndpoint, []) ∧
      (UsbBusInner.new 0).read ⟨5, .Out⟩ 0 = .ok (.error .InvalidEndpoint, []) ∧
      (UsbBusInner.new 0).alloc_ep .Out (some ⟨5, .In⟩) .Bulk 64 0 = .panicked ∧
      (UsbBusInner.new 0).alloc_ep .Out none .Bulk 64 0 ≠ .panicked) := by
  constructor
  · decide
  · have h1 := C3_amended_bounds (UsbBusInner.new 0) ⟨5, .In⟩ [] 0 .Out .Bulk 64 0
      (by decide)
    have h2 := C3_amended_bounds (UsbBusInner.new 0) ⟨5, .Out⟩ [] 0 .Out .Bulk 64 0
      (by decide)
    exact ⟨h1.1, h2.2.1, h1.2.2.1, h1.2.2.2⟩

/-- Word FIFO length is the byte FIFO length divided by the word size. -/
theorem Endpoint.word_buf_len_eq (ep : Endpoint) :
    ep.word_buf_len = ep.buf_len / WORD_LEN := by
  unfold Endpoint.word_buf_len Endpoint.buf_len WORD_LEN
  split <;> rfl

/-- A well-formed state's occupied IN slot holds an endpoint whose
address matches the slot and whose max packet size fits its FIFO
region. -/
theorem Wf.in_slot (s : UsbBusInner) (hwf : Wf s) (i : Nat) (ep : Endpoint)
    (h : s.in_endpoints.get i = .ok (some ep)) :
    ep.address.index = i ∧ ep.address.dir = .In ∧
      ep.max_packet_size ≤ ep.buf_len := by
  rcases hwf with ⟨w0, w1, w2, w3, -, -, -, -⟩
  have hi : i < 4 := by
    by_contra hc
    rw [EpSlots.get_ge _ _ (by omega)] at h
    exact PanicOr.noConfusion h
  interval_cases i <;>
    · simp only [EpSlots.get, PanicOr.ok.injEq] at h
      simp_all [EpWf]

/-- The OUT counterpart of `Wf.in_slot`. -/
theorem Wf.out_slot (s : UsbBusInner) (hwf : Wf s) (i : Nat) (ep : Endpoint)
    (h : s.out_endpoints.get i = .ok (some ep)) :
    ep.address.index = i ∧ ep.address.dir = .Out ∧
      ep.max_packet_size ≤ ep.buf_len := by
  rcases hwf with ⟨-, -, -, -, w0, w1, w2, w3⟩
  have hi : i < 4 := by
    by_contra hc
    rw [EpSlots.get_ge _ _ (by omega)] at h
    exact PanicOr.noConfusion h
  interval_cases i <;>
    · simp only [EpSlots.get, PanicOr.ok.injEq] at h
      simp_all [EpWf]

/-- C4: For every call `write(address, buffer)` on a well-formed bus
state: out-of-range, OUT-direction or unallocated addresses fail with
`InvalidEndpoint`; a buffer longer than the endpoint's max packet size
fails with `BufferOverflow`; otherwise the call succeeds and returns
exactly `buffer.len()`. -/
theorem C4_write (s : UsbBusInner) (addr : EndpointAddress) (buf : List Nat)
    (hwf : Wf s) :
    ((MAX_ENDPOINTS ≤ addr.index ∨ addr.dir = .Out ∨
        s.in_endpoints.get addr.index = .ok none) →
      s.write addr buf = .ok (.error .InvalidEndpoint, [])) ∧
    (∀ ep, addr.index < MAX_ENDPOINTS → addr.dir = .In →
      s.in_endpoints.get addr.index = .ok (some ep) →
      ep.max_packet_size < buf.length →
      s.write addr buf = .ok (.error .BufferOverflow, [])) ∧
    (∀ ep, addr.index < MAX_ENDPOINTS → addr.dir = .In →
      s.in_endpoints.get addr.index = .ok (some ep) →
      buf.length ≤ ep.max_packet_size →
      ∃ fx, s.write addr buf = .ok (.ok buf.length, fx)) := by
  refine ⟨?_, ?_, ?_⟩
  · rintro (h | h | h)
    · simp [UsbBusInner.write, h]
    · by_cases hge : MAX_ENDPOINTS ≤ addr.index
      · simp [UsbBusInner.write, hge]
      · simp [UsbBusInner.write, hge, EndpointAddress.is_out, h]
    · have hlt : addr.index < 4 := by
        by_contra hc
        rw [EpSlots.get_ge _ _ (by omega)] at h
        exact PanicOr.noConfusion h
      have hge : ¬ MAX_ENDPOINTS ≤ addr.index := by
        simp [MAX_ENDPOINTS]
        omega
      by_cases ho : addr.dir = UsbDirection.Out
      · simp [UsbBusInner.write, hge, EndpointAddress.is_out, ho]
      · simp [UsbBusInner.write, hge, EndpointAddress.is_out, ho, h]
  · intro ep hlt hin hslot hgt
    have hge : ¬ MAX_ENDPOINTS ≤ addr.index := Nat.not_le.mpr hlt
    simp [UsbBusInner.write, hge, EndpointAddress.is_out, hin, hslot, hgt]
  · intro ep hlt hin hslot hle
    obtain ⟨hidx, hdir, hmps⟩ := Wf.in_slot s hwf addr.index ep hslot
    have hge : ¬ MAX_ENDPOINTS ≤ addr.index := Nat.not_le.mpr hlt
    have hi4 : ep.address.index < 4 := by
      rw [hidx]
      exact hlt
    have hn : buf.length / WORD_LEN ≤ ep.word_buf_len := by
      rw [Endpoint.word_buf_len_eq]
      exact Nat.div_le_div_right (le_trans hle hmps)
    obtain ⟨fx1, hfx1⟩ : ∃ fx1, setup_in_xfer s.fnrsof ep buf.length = .ok fx1 := by
      rcases hx : ep.address.index with _ | _ | _ | _ | n
      · exact ⟨setup_control_in_endpoint_xfer_fx 0 buf.length 0,
          by simp [setup_in_xfer, hx]⟩
      · exact ⟨setup_in_endpoint_xfer_fx 1 s.fnrsof ep buf.length 1,
          by simp [setup_in_xfer, hx]⟩
      · exact ⟨setup_in_endpoint_xfer_fx 2 s.fnrsof ep buf.length 2,
          by simp [setup_in_xfer, hx]⟩
      · exact ⟨setup_in_endpoint_xfer_fx 3 s.fnrsof ep buf.length 3,
          by simp [setup_in_xfer, hx]⟩
      · rw [hx] at hi4
        omega
    have hfc : fifoCopy ep buf =
        .ok ((List.range (buf.length / WORD_LEN)).map
          fun k => .fifoWordWrite ep.address.index k (wordAt buf k)) := by
      unfold fifoCopy
      simp [hn]
    refine ⟨fx1 ++ (List.range (buf.length / WORD_LEN)).map
      (fun k => .fifoWordWrite ep.address.index k (wordAt buf k)), ?_⟩
    simp [UsbBusInner.write, hge, EndpointAddress.is_out, hin, hslot,
      Nat.not_lt.mpr hle, hfx1, hfc]

def sC4 : UsbBusInner :=
  ⟨⟨some (Endpoint.new ⟨0, .In⟩ .Bulk 64 0), none, none, none⟩,
   ⟨none, none, none, none⟩, 0⟩

theorem C4_witness :
    Wf sC4 ∧ ∃ fx, sC4.write ⟨0, .In⟩ [1, 2, 3] = .ok (.ok 3, fx) := by
  refine ⟨by decide, ?_⟩
  exact (C4_write sC4 ⟨0, .In⟩ [1, 2, 3] (by decide)).2.2
    (Endpoint.new ⟨0, .In⟩ .Bulk 64 0) (by decide) rfl rfl (by decide)

/-- C5: For every call `read(address, buffer)` on a well-formed bus
state: out-of-range, IN-direction or unallocated addresses fail with
`InvalidEndpoint`; a buffer strictly shorter than the endpoint's max
packet size fails with `BufferOverflow`; otherwise the call succeeds and
returns the full caller buffer length (not the received byte count). -/
theorem C5_read (s : UsbBusInner) (addr : EndpointAddress) (bufLen : Nat)
    (hwf : Wf s) :
    ((MAX_ENDPOINTS ≤ addr.index ∨ addr.dir = .In ∨
        s.out_endpoints.get addr.index = .ok none) →
      s.read addr bufLen = .ok (.error .InvalidEndpoint, [])) ∧
    (∀ ep, addr.index < MAX_ENDPOINTS → addr.dir = .Out →
      s.out_endpoints.get addr.index = .ok (some ep) →
      bufLen < ep.max_packet_size →
      s.read addr bufLen = .ok (.error .BufferOverflow, [])) ∧
    (∀ ep, addr.index < MAX_ENDPOINTS → addr.dir = .Out →
      s.out_endpoints.get addr.index = .ok (some ep) →
      ep.max_packet_size ≤ bufLen →
      ∃ fx, s.read addr bufLen = .ok (.ok bufLen, fx)) := by
  refine ⟨?_, ?_, ?_⟩
  · rintro (h | h | h)
    · simp [UsbBusInner.read, h]
    · by_cases hge : MAX_ENDPOINTS ≤ addr.index
      · simp [UsbBusInner.read, hge]
      · simp [UsbBusInner.read, hge, EndpointAddress.is_in, h]
    · have hlt : addr.index < 4 := by
        by_contra hc
        rw [EpSlots.get_ge _ _ (by omega)] at h
        exact PanicOr.noConfusion h
      have hge : ¬ MAX_ENDPOINTS ≤ addr.index := by
        simp [MAX_ENDPOINTS]
        omega
      by_cases ho : addr.dir = UsbDirection.In
      · simp [UsbBusInner.read, hge, EndpointAddress.is_in, ho]
      · simp [UsbBusInner.read, hge, EndpointAddress.is_in, ho, h]
  · intro ep hlt hout hslot hltm
    have hge : ¬ MAX_ENDPOINTS ≤ addr.index := Nat.not_le.mpr hlt
    simp [UsbBusInner.read, hge, EndpointAddress.is_in, hout, hslot, hltm]
  · intro ep hlt hout hslot hle
    obtain ⟨hidx, hdir, hmps⟩ := Wf.out_slot s hwf addr.index ep hslot
    have hge : ¬ MAX_ENDPOINTS ≤ addr.index := Nat.not_le.mpr hlt
    have hi4 : ep.address.index < 4 := by
      rw [hidx]
      exact hlt
    obtain ⟨fx1, hfx1⟩ : ∃ fx1, setup_out_xfer s.fnrsof ep bufLen = .ok fx1 := by
      rcases hx : ep.address.index with _ | _ | _ | _ | n
      · exact ⟨setup_control_out_endpoint_xfer_fx bufLen,
          by simp [setup_out_xfer, hx]⟩
      · exact ⟨setup_out_endpoint_xfer_fx 1 s.fnrsof ep bufLen,
          by simp [setup_out_xfer, hx]⟩
      · exact ⟨setup_out_endpoint_xfer_fx 2 s.fnrsof ep bufLen,
          by simp [setup_out_xfer, hx]⟩
      · exact ⟨setup_out_endpoint_xfer_fx 3 s.fnrsof ep bufLen,
          by simp [setup_out_xfer, hx]⟩
      · rw [hx] at hi4
        omega
    refine ⟨fx1 ++ readCopyLoop (min ep.word_buf_len (bufLen / WORD_LEN)) 0
      ep.max_packet_size, ?_⟩
    simp [UsbBusInner.read, hge, EndpointAddress.is_in, hout, hslot,
      Nat.not_lt.mpr hle, hfx1]

def sC5 : UsbBusInner :=
  ⟨⟨none, none, none, none⟩,
   ⟨some (Endpoint.new ⟨0, .Out⟩ .Bulk 8 0), none, none, none⟩, 0⟩

theorem C5_witness :
    Wf sC5 ∧ ∃ fx, sC5.read ⟨0, .Out⟩ 16 = .ok (.ok 16, fx) := by
  refine ⟨by decide, ?_⟩
  exact (C5_read sC5 ⟨0, .Out⟩ 16 (by decide)).2.2
    (Endpoint.new ⟨0, .Out⟩ .Bulk 8 0) (by decide) rfl rfl (by decide)

/-- C6: The FIFO region map is injective and non-overlapping for the
fixed configuration (RX 0x80 bytes, TX0 0x80, TX1 0x40, TX2 0, TX3 0):
each TX region's offset from the FIFO base is the running sum of all
preceding region lengths — TX0 at 0x80, TX1 at 0x100, TX2 and TX3 both
at 0x140 with zero length — `setup_fifos` programs exactly those
`(depth, start)` pairs, and no two nonzero-length regions overlap. -/
theorem C6_fifo_map :
    TX_FIFO_OFFSETS.map (fun o => o - USB_FIFO_OFFSET) =
      [0x80, 0x100, 0x140, 0x140] ∧
    TX2_FIFO_LEN = 0 ∧ TX3_FIFO_LEN = 0 ∧
    setup_fifos_tx_regs = [(0x80, 0x80), (0x40, 0x100), (0, 0x140), (0, 0x140)] ∧
    (∀ i : Fin 4, TX_FIFO_OFFSETS.getD i 0 =
      USB_FIFO_OFFSET + RX_FIFO_LEN + (TX_FIFO_LENGTHS.take i).sum) ∧
    (∀ p : Fin 5 × Fin 5, p.1 ≠ p.2 →
      (fifoRegions.getD p.1 ⟨0, 0⟩).len ≠ 0 →
      (fifoRegions.getD p.2 ⟨0, 0⟩).len ≠ 0 →
      (fifoRegions.getD p.1 ⟨0, 0⟩).disjoint (fifoRegions.getD p.2 ⟨0, 0⟩)) := by
  decide

/-- C7: `poll()` produces exactly one of six outcomes with a fixed
priority, first match wins: OutPacketReceived status yields
`Data{ep_out}` regardless of pending Reset/Suspend/Resume flags, then
SetupPacketReceived yields `Data{ep_setup}`, then wake-up yields
`Resume`, then reset yields `Reset`, then suspend yields `Suspend`,
otherwise `None`. -/
theorem C7_poll_priority (g : Gintf) (r : Grstatp) :
    (r.rpckst = OutPacketReceived → poll g r = .Data r.epnum 0 0) ∧
    (r.rpckst ≠ OutPacketReceived → r.rpckst = SetupPacketReceived →
      poll g r = .Data 0 0 r.epnum) ∧
    (r.rpckst ≠ OutPacketReceived → r.rpckst ≠ SetupPacketReceived →
      g.wkupif = true → poll g r = .Resume) ∧
    (r.rpckst ≠ OutPacketReceived → r.rpckst ≠ SetupPacketReceived →
      g.wkupif = false → g.rst = true → poll g r = .Reset) ∧
    (r.rpckst ≠ OutPacketReceived → r.rpckst ≠ SetupPacketReceived →
      g.wkupif = false → g.rst = false → g.sp = true → poll g r = .Suspend) ∧
    (r.rpckst ≠ OutPacketReceived → r.rpckst ≠ SetupPacketReceived →
      g.wkupif = false → g.rst = false → g.sp = false →
      poll g r = .None) := by
  refine ⟨?_, ?_, ?_, ?_, ?_, ?_⟩ <;>
    · intros
      simp_all [poll]

theorem C7_witness :
    poll ⟨true, true, true⟩ ⟨OutPacketReceived, 3⟩ = .Data 3 0 0 :=
  (C7_poll_priority ⟨true, true, true⟩ ⟨OutPacketReceived, 3⟩).1 rfl

/-- C8: For every endpoint address whose index is ≥ 4, `set_stalled` is
a silent no-op (the registers are returned untouched) and `is_stalled`
returns `false`; for in-range indices both operate on the per-index,
per-direction STALL register bit: the targeted bit becomes the requested
value and every other (direction, index) stall bit is unchanged. -/
theorem C8_stall (regs : StallRegs) (addr : EndpointAddress) (b : Bool) :
    (MAX_ENDPOINTS ≤ addr.index →
      set_stalled regs addr b = regs ∧ is_stalled regs addr = false) ∧
    (addr.index < MAX_ENDPOINTS →
      stallBit (set_stalled regs addr b) addr.dir addr.index = b ∧
      is_stalled (set_stalled regs addr b) addr = b ∧
      (∀ d i, d ≠ addr.dir ∨ i ≠ addr.index →
        stallBit (set_stalled regs addr b) d i = stallBit regs d i)) := by
  obtain ⟨j, ad⟩ := addr
  constructor
  · intro hge
    have hj : 4 ≤ j := hge
    constructor
    · cases ad <;>
        · unfold set_stalled
          simp only [EndpointAddress.is_in]
          match j, hj with
          | n + 4, _ => simp
    · unfold is_stalled
      match j, hj with
      | n + 4, _ => simp
  · intro hlt
    have hj : j < 4 := hlt
    refine ⟨?_, ?_, ?_⟩
    · cases ad <;> interval_cases j <;>
        simp [set_stalled, stallBit, EndpointAddress.is_in,
          set_in_stalled, set_out_stalled]
    · cases ad <;> interval_cases j <;>
        simp [set_stalled, is_stalled, EndpointAddress.is_in,
          set_in_stalled, set_out_stalled]
    · intro d i hne
      have hd4 : 4 ≤ i ∨ i < 4 := by omega
      rcases hd4 with hd4 | hd4
      · have h1 : stallBit (set_stalled regs ⟨j, ad⟩ b) d i = false := by
          cases d <;>
            · unfold stallBit
              match i, hd4 with
              | n + 4, _ => simp
        have h2 : stallBit regs d i = false := by
          cases d <;>
            · unfold stallBit
              match i, hd4 with
              | n + 4, _ => simp
        rw [h1, h2]
      · rcases hne with hne | hne
        · cases d <;> cases ad <;>
            first
              | exact absurd rfl hne
              | (interval_cases i <;> interval_cases j <;>
                  simp_all [set_stalled, stallBit, EndpointAddress.is_in,
                    set_in_stalled, set_out_stalled])
        · cases d <;> cases ad <;> interval_cases i <;> interval_cases j <;>
            simp_all [set_stalled, stallBit, EndpointAddress.is_in,
              set_in_stalled, set_out_stalled]

theorem C8_witness :
    (MAX_ENDPOINTS ≤ (7 : Nat) ∧
      set_stalled ⟨⟨false, false, false⟩, ⟨false, false, false⟩,
          ⟨false, false, false⟩, ⟨false, false, false⟩, ⟨false, false, false⟩,
          ⟨false, false, false⟩, ⟨false, false, false⟩, ⟨false, false, false⟩⟩
          ⟨7, .In⟩ true =
        ⟨⟨false, false, false⟩, ⟨false, false, false⟩, ⟨false, false, false⟩,
          ⟨false, false, false⟩, ⟨false, false, false⟩, ⟨false, false, false⟩,
          ⟨false, false, false⟩, ⟨false, false, false⟩⟩) ∧
    is_stalled (set_stalled ⟨⟨false, false, false⟩, ⟨false, false, false⟩,
        ⟨false, false, false⟩, ⟨false, false, false⟩, ⟨false, false, false⟩,
        ⟨false, false, false⟩, ⟨false, false, false⟩, ⟨false, false, false⟩⟩
        ⟨2, .In⟩ true) ⟨2, .In⟩ = true := by
  constructor
  · exact ⟨by decide, ((C8_stall _ ⟨7, .In⟩ true).1 (by decide)).1⟩
  · exact ((C8_stall _ ⟨2, .In⟩ true).2 (by decide)).2.1

def epC9 : Endpoint := Endpoint.new ⟨1, .In⟩ .Bulk 64 0

def sC9 : UsbBusInner :=
  ⟨⟨none, some epC9, none, none⟩, ⟨none, none, none, none⟩, 0⟩

def epC9z : Endpoint := Endpoint.new ⟨0, .In⟩ .Control 64 0

def sC9z : UsbBusInner :=
  ⟨⟨some epC9z, none, none, none⟩, ⟨none, none, none, none⟩, 0⟩

/-- C9: evaluating `write` at concrete inputs shows the claim's intended
register programming does not happen: the setup helpers declare their
parameters as `($index, $len)` but every call site passes `(len, index)`,
so a successful 5-byte `write` on IN endpoint 1 programs the transfer
byte-length register with 1 (the endpoint index, not the buffer length 5)
and writes 5 (the buffer length, not the endpoint index) into the
TX-FIFO-empty interrupt-enable field; on control endpoint 0 a 4-byte
`write` programs byte-length 0 and never arms the interrupt.  The
packet-count field does receive 1 as claimed. -/
theorem C9_swapped_len_and_index :
    sC9.write ⟨1, .In⟩ [1, 2, 3, 4, 5] =
      .ok (.ok 5, [.diepLenPcntTlen 1 1 1, .diepfeintenIeptxfeie 5,
        .diepCtlCnakEpen 1, .fifoWordWrite 1 0 67305985]) ∧
    sC9z.write ⟨0, .In⟩ [9, 9, 9, 9] =
      .ok (.ok 4, [.diepLenPcntTlen 0 1 0, .diepCtlCnakEpen 0,
        .fifoWordWrite 0 0 151587081]) ∧
    (1 : Nat) ≠ [1, 2, 3, 4, 5].length ∧ (0 : Nat) ≠ [9, 9, 9, 9].length := by
  refine ⟨rfl, rfl, by decide, by decide⟩

/-- Error results of the transfer engine carry an empty effect trace. -/
def errFxEmpty : PanicOr (Except UsbError Nat × List Effect) → Prop
  | .ok (.error _, fx) => fx = []
  | _ => True

theorem write_err_trace_empty (s : UsbBusInner) (addr : EndpointAddress)
    (buf : List Nat) : errFxEmpty (s.write addr buf) := by
  unfold UsbBusInner.write
  by_cases h1 : MAX_ENDPOINTS ≤ addr.index
  · simp [h1, errFxEmpty]
  by_cases h2 : addr.is_out = true
  · simp [h1, h2, errFxEmpty]
  rcases hg : s.in_endpoints.get addr.index with _ | op
  · simp [h1, h2, hg, errFxEmpty]
  rcases op with _ | ep
  · simp [h1, h2, hg, errFxEmpty]
  by_cases h3 : ep.max_packet_size < buf.length
  · simp [h1, h2, hg, h3, errFxEmpty]
  rcases hs : setup_in_xfer s.fnrsof ep buf.length with e | fx
  · simp [h1, h2, hg, h3, hs, errFxEmpty]
  rcases hf : fifoCopy ep buf with _ | fx2
  · simp [h1, h2, hg, h3, hs, hf, errFxEmpty]
  · simp [h1, h2, hg, h3, hs, hf, errFxEmpty]

theorem read_err_trace_empty (s : UsbBusInner) (addr : EndpointAddress)
    (bufLen : Nat) : errFxEmpty (s.read addr bufLen) := by
  unfold UsbBusInner.read
  by_cases h1 : MAX_ENDPOINTS ≤ addr.index
  · simp [h1, errFxEmpty]
  by_cases h2 : addr.is_in = true
  · simp [h1, h2, errFxEmpty]
  rcases hg : s.out_endpoints.get addr.index with _ | op
  · simp [h1, h2, hg, errFxEmpty]
  rcases op with _ | ep
  · simp [h1, h2, hg, errFxEmpty]
  by_cases h3 : bufLen < ep.max_packet_size
  · simp [h1, h2, hg, h3, errFxEmpty]
  rcases hs : setup_out_xfer s.fnrsof ep bufLen with e | fx
  · simp [h1, h2, hg, h3, hs, errFxEmpty]
  · simp [h1, h2, hg, h3, hs, errFxEmpty]

/-- C10: `write` and `read` are atomic on error — whenever either
returns an error, the effect trace is empty: no register was written and
no FIFO memory was touched (and, both taking the bus state immutably,
the endpoint allocation tables are unchanged by construction). -/
theorem C10_error_atomic (s : UsbBusInner) (addr : EndpointAddress)
    (buf : List Nat) (bufLen : Nat) (e1 e2 : UsbError)
    (fx1 fx2 : List Effect) :
    (s.write addr buf = .ok (.error e1, fx1) → fx1 = []) ∧
    (s.read addr bufLen = .ok (.error e2, fx2) → fx2 = []) := by
  constructor
  · intro h
    have hw := write_err_trace_empty s addr buf
    rw [h] at hw
    exact hw
  · intro h
    have hr := read_err_trace_empty s addr bufLen
    rw [h] at hr
    exact hr

theorem C10_witness :
    (UsbBusInner.new 0).write ⟨0, .In⟩ [] = .ok (.error .InvalidEndpoint, []) ∧
    (UsbBusInner.new 0).read ⟨0, .In⟩ 0 = .ok (.error .InvalidEndpoint, []) ∧
    ([] : List Effect) = [] :=
  ⟨rfl, rfl,
    (C10_error_atomic (UsbBusInner.new 0) ⟨0, .In⟩ [] 0 .InvalidEndpoint
      .InvalidEndpoint [] []).1 rfl⟩

end Gd32Usbfs
